import Mathlib

/-!
Verification of `src/pi_deployment/ursus_data_logger.py` (UrsusDataLogger).

Shallow embedding conventions:
* Python values flowing through `_convert_decimals` and DynamoDB items are
  modelled by the inductive type `Value` (strings, ints, bools, None,
  floats, decimals, dicts as ordered association lists, lists).
* A Python float is modelled by its canonical shortest round-trip decimal
  string, which is the string `str(x)` returns; this is the only
  observation `_convert_decimals` makes of a float.
* `decimal.Decimal(s)` is modelled by `pyDecimalOfString s : Option PyDecimal`,
  which parses sign, digits, optional fraction part, optional exponent,
  and the `inf` / `nan` forms; `none` models the `InvalidOperation`
  exception Python raises on a non-numeric string.  Finite decimals are
  represented by their exact rational value.
* Exceptions are modelled by `Option` / `Except`; `datetime.now(...)` is
  modelled by passing the resulting ISO-8601 timestamp string as an
  explicit argument; ISO-8601 UTC timestamps compare lexicographically,
  exactly as DynamoDB compares string sort keys.
-/

/-- The value of a Python `decimal.Decimal`: an exact rational, a signed
infinity, or NaN. -/
inductive PyDecimal where
  | fin (q : ℚ)
  | posInf
  | negInf
  | nan
deriving DecidableEq, Repr

/-- Numeric value of a list of ASCII digit characters (most significant
first), read in base 10. -/
def natOfDigits (l : List Char) : ℕ :=
  l.foldl (fun a c => a * 10 + (c.toNat - 48)) 0

/-- A nonempty, all-digit character list. -/
def isDigitStr (l : List Char) : Bool :=
  !l.isEmpty && l.all Char.isDigit

/-- Split a character list at the first occurrence of `c`; `none` when `c`
does not occur. -/
def splitAtChar (c : Char) : List Char → Option (List Char × List Char)
  | [] => none
  | x :: xs =>
    if x = c then some ([], xs)
    else (splitAtChar c xs).map (fun p => (x :: p.1, p.2))

/-- Parse an unsigned decimal mantissa: digits with an optional single
decimal point, at least one digit overall (mirrors what
`decimal.Decimal` accepts, e.g. `245.5`, `1.`, `.5`). -/
def parseMant (l : List Char) : Option ℚ :=
  match splitAtChar '.' l with
  | none => if isDigitStr l then some (mkRat (natOfDigits l) 1) else none
  | some (a, b) =>
    if a.all Char.isDigit && b.all Char.isDigit && !(a.isEmpty && b.isEmpty) then
      some (mkRat (natOfDigits a * 10 ^ b.length + natOfDigits b) (10 ^ b.length))
    else none

/-- Parse an exponent (after `e`): optional sign then digits. -/
def parseExp (l : List Char) : Option ℤ :=
  match l with
  | '+' :: ds => if isDigitStr ds then some ((natOfDigits ds : ℤ)) else none
  | '-' :: ds => if isDigitStr ds then some (-(natOfDigits ds : ℤ)) else none
  | ds => if isDigitStr ds then some ((natOfDigits ds : ℤ)) else none

/-- Scale a rational by a power of ten. -/
def scalePow10 (q : ℚ) (e : ℤ) : ℚ :=
  if 0 ≤ e then mkRat (q.num * 10 ^ e.toNat) q.den
  else mkRat q.num (q.den * 10 ^ (-e).toNat)

/-- `decimal.Decimal` on a character list: sign, then either `inf` /
`infinity` / `nan`, or a mantissa with an optional `e`-exponent. -/
def pyDecimalOfChars (l : List Char) : Option PyDecimal :=
  let signed : Bool × List Char :=
    match l with
    | '-' :: r => (true, r)
    | '+' :: r => (false, r)
    | r => (false, r)
  let neg := signed.1
  let rest := signed.2
  if rest = "inf".data ∨ rest = "Infinity".data then
    some (if neg then .negInf else .posInf)
  else if rest = "nan".data then some .nan
  else
    let core : Option ℚ :=
      match splitAtChar 'e' rest with
      | some (m, e) => do
        let q ← parseMant m
        let ex ← parseExp e
        pure (scalePow10 q ex)
      | none =>
        match splitAtChar 'E' rest with
        | some (m, e) => do
          let q ← parseMant m
          let ex ← parseExp e
          pure (scalePow10 q ex)
        | none => parseMant rest
    core.map (fun q => .fin (if neg then -q else q))

/-- `decimal.Decimal` applied to a string (the model of
`Decimal(str(x))`); `none` models the `InvalidOperation` exception. -/
def pyDecimalOfString (s : String) : Option PyDecimal :=
  pyDecimalOfChars s.data

/-- A Python float, identified by the canonical shortest round-trip
decimal string that `str` returns for it (e.g. `str(245.50) = "245.5"`,
`str(0.1) = "0.1"`).  The only operation the source performs on a float
is `str`, so this representation is complete for the code under
verification. -/
structure PyFloat where
  repr : String
deriving DecidableEq, Repr

/-- The dynamic values handled by `_convert_decimals` and stored in
DynamoDB items: dicts are ordered association lists (Python dicts keep
insertion order and have unique keys), lists are sequences. -/
inductive Value where
  | str (s : String)
  | int (n : ℤ)
  | bool (b : Bool)
  | none
  | float (f : PyFloat)
  | dec (d : PyDecimal)
  | dict (fs : List (String × Value))
  | list (es : List Value)

mutual

/-- Well-formedness of a value: every float it contains carries a string
that `decimal.Decimal` accepts.  Every string `str` actually produces
for a Python float has this property. -/
def Value.wf : Value → Bool
  | .dict fs => wfFields fs
  | .list es => wfElems es
  | .float f => (pyDecimalOfString f.repr).isSome
  | _ => true

def wfFields : List (String × Value) → Bool
  | [] => true
  | kv :: rest => kv.2.wf && wfFields rest

def wfElems : List Value → Bool
  | [] => true
  | v :: rest => v.wf && wfElems rest

end

mutual

/-- `UrsusDataLogger._convert_decimals`:
dict values are converted recursively with keys unchanged, list elements
are converted recursively in order, a float becomes
`Decimal(str(data))`, and every other value is returned unchanged.
`none` models a propagating exception (only reachable from a float whose
string `Decimal` rejects, which never occurs for actual floats). -/
def convertDecimals : Value → Option Value
  | .dict fs => (convertFields fs).map .dict
  | .list es => (convertElems es).map .list
  | .float f => (pyDecimalOfString f.repr).map .dec
  | v => some v

def convertFields : List (String × Value) → Option (List (String × Value))
  | [] => some []
  | kv :: rest =>
    match convertDecimals kv.2 with
    | Option.none => Option.none
    | some v =>
      match convertFields rest with
      | Option.none => Option.none
      | some rest2 => some ((kv.1, v) :: rest2)

def convertElems : List Value → Option (List Value)
  | [] => some []
  | v :: rest =>
    match convertDecimals v with
    | Option.none => Option.none
    | some v2 =>
      match convertElems rest with
      | Option.none => Option.none
      | some rest2 => some (v2 :: rest2)

end

example : pyDecimalOfString "245.5" = some (.fin (mkRat 491 2)) := by decide
example : pyDecimalOfString "-1.5e-07" = some (.fin (mkRat (-15) (10 ^ 8))) := by decide
example : pyDecimalOfString "1e+16" = some (.fin (mkRat (10 ^ 16) 1)) := by decide
example : pyDecimalOfString "inf" = some .posInf := by decide
example : pyDecimalOfString "-inf" = some .negInf := by decide
example : pyDecimalOfString "nan" = some .nan := by decide
example : pyDecimalOfString "abc" = Option.none := by decide
example : (convertDecimals (.float ⟨"0.1"⟩)) = some (.dec (.fin (mkRat 1 10))) := rfl

/-- Structural induction for `Value` with membership hypotheses for the
nested dict and list constructors. -/
def valueInduction (P : Value → Prop)
    (hstr : ∀ s, P (.str s)) (hint : ∀ n, P (.int n)) (hbool : ∀ b, P (.bool b))
    (hnone : P .none) (hfloat : ∀ f, P (.float f)) (hdec : ∀ d, P (.dec d))
    (hdict : ∀ fs, (∀ kv ∈ fs, P kv.2) → P (.dict fs))
    (hlist : ∀ es, (∀ v ∈ es, P v) → P (.list es)) :
    ∀ v, P v
  | .str s => hstr s
  | .int n => hint n
  | .bool b => hbool b
  | .none => hnone
  | .float f => hfloat f
  | .dec d => hdec d
  | .dict fs => hdict fs (fun kv _hkv =>
      valueInduction P hstr hint hbool hnone hfloat hdec hdict hlist kv.2)
  | .list es => hlist es (fun v _hv =>
      valueInduction P hstr hint hbool hnone hfloat hdec hdict hlist v)
decreasing_by
  · have h1 := List.sizeOf_lt_of_mem _hkv
    obtain ⟨k, v⟩ := kv
    simp only [Prod.mk.sizeOf_spec] at h1
    simp only [Value.dict.sizeOf_spec]
    omega
  · have h1 := List.sizeOf_lt_of_mem _hv
    simp only [Value.list.sizeOf_spec]
    omega

/-- Converting the fields of a dict keeps every key and converts every
value, in order. -/
theorem convertFields_forall2 : ∀ {fs fs'}, convertFields fs = some fs' →
    List.Forall₂ (fun kv kv' : String × Value =>
      kv.1 = kv'.1 ∧ convertDecimals kv.2 = some kv'.2) fs fs' := by
  intro fs
  induction fs with
  | nil =>
    intro fs' h
    simp only [convertFields, Option.some.injEq] at h
    subst h
    exact List.Forall₂.nil
  | cons kv rest ih =>
    intro fs' h
    rw [convertFields] at h
    cases hv : convertDecimals kv.2 with
    | none => rw [hv] at h; exact absurd h (by simp)
    | some v =>
      rw [hv] at h
      cases hr : convertFields rest with
      | none => rw [hr] at h; exact absurd h (by simp)
      | some rest2 =>
        rw [hr] at h
        simp only [Option.some.injEq] at h
        subst h
        exact List.Forall₂.cons ⟨rfl, hv⟩ (ih hr)

/-- Converting the elements of a list converts every element, in order. -/
theorem convertElems_forall2 : ∀ {es es'}, convertElems es = some es' →
    List.Forall₂ (fun v v' => convertDecimals v = some v') es es' := by
  intro es
  induction es with
  | nil =>
    intro es' h
    simp only [convertElems, Option.some.injEq] at h
    subst h
    exact List.Forall₂.nil
  | cons v rest ih =>
    intro es' h
    rw [convertElems] at h
    cases hv : convertDecimals v with
    | none => rw [hv] at h; exact absurd h (by simp)
    | some v2 =>
      rw [hv] at h
      cases hr : convertElems rest with
      | none => rw [hr] at h; exact absurd h (by simp)
      | some rest2 =>
        rw [hr] at h
        simp only [Option.some.injEq] at h
        subst h
        exact List.Forall₂.cons hv (ih hr)

/-- Totality: `_convert_decimals` succeeds on every well-formed value. -/
theorem convertDecimals_total : ∀ v : Value, v.wf = true →
    (convertDecimals v).isSome = true := by
  intro v
  induction v using valueInduction with
  | hstr s => intro _; rfl
  | hint n => intro _; rfl
  | hbool b => intro _; rfl
  | hnone => intro _; rfl
  | hdec d => intro _; rfl
  | hfloat f =>
    intro h
    rw [Value.wf] at h
    rw [convertDecimals]
    cases hp : pyDecimalOfString f.repr with
    | none => rw [hp] at h; exact absurd h (by simp)
    | some d => rfl
  | hdict fs ih =>
    intro h
    rw [Value.wf] at h
    rw [convertDecimals]
    suffices hs : (convertFields fs).isSome = true by
      cases hq : convertFields fs with
      | none => rw [hq] at hs; exact absurd hs (by simp)
      | some fs' => rfl
    induction fs with
    | nil => rfl
    | cons kv rest ihr =>
      rw [wfFields, Bool.and_eq_true] at h
      rw [convertFields]
      have h1 := ih kv (List.mem_cons_self kv rest) h.1
      cases hv : convertDecimals kv.2 with
      | none => rw [hv] at h1; exact absurd h1 (by simp)
      | some v =>
        have h2 := ihr (fun kv2 hkv2 => ih kv2 (List.mem_cons_of_mem kv hkv2)) h.2
        cases hr : convertFields rest with
        | none => rw [hr] at h2; exact absurd h2 (by simp)
        | some rest2 => rfl
  | hlist es ih =>
    intro h
    rw [Value.wf] at h
    rw [convertDecimals]
    suffices hs : (convertElems es).isSome = true by
      cases hq : convertElems es with
      | none => rw [hq] at hs; exact absurd hs (by simp)
      | some es' => rfl
    induction es with
    | nil => rfl
    | cons v rest ihr =>
      rw [wfElems, Bool.and_eq_true] at h
      rw [convertElems]
      have h1 := ih v (List.mem_cons_self v rest) h.1
      cases hv : convertDecimals v with
      | none => rw [hv] at h1; exact absurd h1 (by simp)
      | some v2 =>
        have h2 := ihr (fun v3 hv3 => ih v3 (List.mem_cons_of_mem v hv3)) h.2
        cases hr : convertElems rest with
        | none => rw [hr] at h2; exact absurd h2 (by simp)
        | some rest2 => rfl

/-- A value produced by a successful `_convert_decimals` run is a fixed
point of `_convert_decimals`. -/
theorem convertDecimals_fix : ∀ v w : Value, convertDecimals v = some w →
    convertDecimals w = some w := by
  intro v
  induction v using valueInduction with
  | hstr s => intro w h; cases h; rfl
  | hint n => intro w h; cases h; rfl
  | hbool b => intro w h; cases h; rfl
  | hnone => intro w h; cases h; rfl
  | hdec d => intro w h; cases h; rfl
  | hfloat f =>
    intro w h
    rw [convertDecimals] at h
    cases hp : pyDecimalOfString f.repr with
    | none => rw [hp] at h; exact absurd h (by simp)
    | some d =>
      rw [hp] at h
      simp only [Option.map_some', Option.some.injEq] at h
      subst h
      rfl
  | hdict fs ih =>
    intro w h
    rw [convertDecimals] at h
    cases hq : convertFields fs with
    | none => rw [hq] at h; exact absurd h (by simp)
    | some fs' =>
      rw [hq] at h
      simp only [Option.map_some', Option.some.injEq] at h
      subst h
      rw [convertDecimals]
      suffices hs : convertFields fs' = some fs' by rw [hs]; rfl
      induction fs generalizing fs' with
      | nil =>
        simp only [convertFields, Option.some.injEq] at hq
        subst hq
        rfl
      | cons kv rest ihr =>
        rw [convertFields] at hq
        cases hv : convertDecimals kv.2 with
        | none => rw [hv] at hq; exact absurd hq (by simp)
        | some v =>
          rw [hv] at hq
          cases hr : convertFields rest with
          | none => rw [hr] at hq; exact absurd hq (by simp)
          | some rest2 =>
            rw [hr] at hq
            simp only [Option.some.injEq] at hq
            subst hq
            have hv2 := ih kv (List.mem_cons_self kv rest) v hv
            have hr2 := ihr (fun kv2 hkv2 => ih kv2 (List.mem_cons_of_mem kv hkv2)) rest2 hr
            rw [convertFields, hv2, hr2]
  | hlist es ih =>
    intro w h
    rw [convertDecimals] at h
    cases hq : convertElems es with
    | none => rw [hq] at h; exact absurd h (by simp)
    | some es' =>
      rw [hq] at h
      simp only [Option.map_some', Option.some.injEq] at h
      subst h
      rw [convertDecimals]
      suffices hs : convertElems es' = some es' by rw [hs]; rfl
      induction es generalizing es' with
      | nil =>
        simp only [convertElems, Option.some.injEq] at hq
        subst hq
        rfl
      | cons v rest ihr =>
        rw [convertElems] at hq
        cases hv : convertDecimals v with
        | none => rw [hv] at hq; exact absurd hq (by simp)
        | some v2 =>
          rw [hv] at hq
          cases hr : convertElems rest with
          | none => rw [hr] at hq; exact absurd hq (by simp)
          | some rest2 =>
            rw [hr] at hq
            simp only [Option.some.injEq] at hq
            subst hq
            have hv2 := ih v (List.mem_cons_self v rest) v2 hv
            have hr2 := ihr (fun v3 hv3 => ih v3 (List.mem_cons_of_mem v hv3)) rest2 hr
            rw [convertElems, hv2, hr2]

/-- C1: `_convert_decimals` behaves case-wise as specified: a dict is
returned as a dict with the same keys and each value converted; a list
is returned as a list of the same length with each element converted in
order; a float is converted to the exact decimal denoted by its
canonical decimal string (Python prints the float literal `245.50` as
`"245.5"`, so `price=245.50` is stored as exactly the decimal `245.50`
and not as `245.50000000000001`); every other scalar passes through
unchanged. -/
theorem C1_convert_decimals_casewise :
    (∀ fs, wfFields fs = true → ∃ fs', convertDecimals (.dict fs) = some (.dict fs') ∧
        List.Forall₂ (fun kv kv' : String × Value =>
          kv.1 = kv'.1 ∧ convertDecimals kv.2 = some kv'.2) fs fs')
  ∧ (∀ es, wfElems es = true → ∃ es', convertDecimals (.list es) = some (.list es') ∧
        List.Forall₂ (fun v v' => convertDecimals v = some v') es es')
  ∧ (∀ f : PyFloat, convertDecimals (.float f) = (pyDecimalOfString f.repr).map Value.dec)
  ∧ (convertDecimals (.float ⟨"245.5"⟩) = some (.dec (.fin (mkRat 24550 100)))
      ∧ mkRat 24550 100 ≠ mkRat 24550000000000001 (10 ^ 14))
  ∧ (∀ s, convertDecimals (.str s) = some (.str s))
  ∧ (∀ n, convertDecimals (.int n) = some (.int n))
  ∧ (∀ b, convertDecimals (.bool b) = some (.bool b))
  ∧ (∀ d, convertDecimals (.dec d) = some (.dec d))
  ∧ convertDecimals .none = some .none := by
  refine ⟨?_, ?_, ?_, ⟨rfl, by decide⟩, fun s => rfl, fun n => rfl,
    fun b => rfl, fun d => rfl, rfl⟩
  · intro fs h
    have ht := convertDecimals_total (.dict fs) (by rw [Value.wf]; exact h)
    rw [convertDecimals] at ht ⊢
    cases hq : convertFields fs with
    | none => rw [hq] at ht; exact absurd ht (by simp)
    | some fs' => exact ⟨fs', rfl, convertFields_forall2 hq⟩
  · intro es h
    have ht := convertDecimals_total (.list es) (by rw [Value.wf]; exact h)
    rw [convertDecimals] at ht ⊢
    cases hq : convertElems es with
    | none => rw [hq] at ht; exact absurd ht (by simp)
    | some es' => exact ⟨es', rfl, convertElems_forall2 hq⟩
  · intro f; rfl

/-- Witness for C1: the dict `{"price": 245.50}` (a trade-like field
mapping) is well-formed and is converted case-wise. -/
theorem C1_witness :
    ∃ fs', convertDecimals (.dict [("price", .float ⟨"245.5"⟩)]) = some (.dict fs') ∧
      List.Forall₂ (fun kv kv' : String × Value =>
        kv.1 = kv'.1 ∧ convertDecimals kv.2 = some kv'.2)
        [("price", .float ⟨"245.5"⟩)] fs' :=
  C1_convert_decimals_casewise.1 [("price", .float ⟨"245.5"⟩)] (by decide)

/-- C5: normalization is idempotent: a second application of
`_convert_decimals` (on a successful result, and vacuously on a raised
exception) changes nothing. -/
theorem C5_convert_idempotent (v : Value) :
    (convertDecimals v).bind convertDecimals = convertDecimals v := by
  cases h : convertDecimals v with
  | none => rfl
  | some w =>
    simp only [Option.some_bind]
    exact convertDecimals_fix v w h

/-- C6: `_convert_decimals` is total over well-formed input: it returns
a result and never raises (its only conceivable failure point,
`Decimal(str(x))`, succeeds for every actual float string). -/
theorem C6_convert_total (v : Value) (h : v.wf = true) :
    (convertDecimals v).isSome = true :=
  convertDecimals_total v h

/-- Witness for C6 at a concrete nested value. -/
theorem C6_witness :
    Value.wf (.dict [("a", .list [.float ⟨"0.1"⟩, .int 3]), ("b", .str "x")]) = true
    ∧ (convertDecimals (.dict [("a", .list [.float ⟨"0.1"⟩, .int 3]),
        ("b", .str "x")])).isSome = true :=
  ⟨by decide, C6_convert_total _ (by decide)⟩

/-- A DynamoDB item, and equally a Python dict with string keys (ordered
association list with unique keys). -/
abbrev Item := List (String × Value)

/-- Strict lexicographic order on character lists (by code point). -/
def charListLt : List Char → List Char → Bool
  | [], [] => false
  | [], _ :: _ => true
  | _ :: _, [] => false
  | a :: as, b :: bs =>
    if a.toNat < b.toNat then true
    else if b.toNat < a.toNat then false
    else charListLt as bs

/-- Lexicographic string order (total: `a ≤ b` iff not `b < a`); ISO-8601
UTC timestamps compare this way, consistently with time order, and
DynamoDB compares string keys lexicographically. -/
def strLe (a b : String) : Bool := !(charListLt b.data a.data)

/-- The string content of attribute `key`, when present with string type. -/
def attrStr (key : String) (it : Item) : Option String :=
  match it.lookup key with
  | some (.str s) => some s
  | _ => Option.none

/-- DynamoDB condition `Key(key).eq(s)` for a string value `s`: an item
matches only if the attribute exists, is a string and equals `s`. -/
def attrEqStr (key s : String) (it : Item) : Bool :=
  match attrStr key it with
  | some t => t == s
  | Option.none => false

/-- DynamoDB condition `Key(key).between(lo, hi)` (inclusive on both ends). -/
def attrBetween (key lo hi : String) (it : Item) : Bool :=
  match attrStr key it with
  | some t => strLe lo t && strLe t hi
  | Option.none => false

/-- DynamoDB condition `Attr(key).gte(cutoff)`. -/
def attrGe (key cutoff : String) (it : Item) : Bool :=
  match attrStr key it with
  | some t => strLe cutoff t
  | Option.none => false

/-- Insert an item into a list that is sorted ascending by attribute `key`. -/
def insertByKey (key : String) (x : Item) : List Item → List Item
  | [] => [x]
  | y :: ys =>
    if strLe ((attrStr key x).getD "") ((attrStr key y).getD "") then x :: y :: ys
    else y :: insertByKey key x ys

/-- Sort ascending by attribute `key` (a DynamoDB query returns items
ordered by the sort key ascending, `ScanIndexForward` defaulting to true). -/
def sortByKey (key : String) (l : List Item) : List Item :=
  l.foldr (insertByKey key) []

/-- Error classification of a store call. -/
inductive StoreErr where
  | unavailable
  | rejected
deriving DecidableEq, Repr

/-- The DynamoDB backend: the four tables of `__init__`
(`CryonithTradeLogs`, `CryonithStrategyMetrics`, `CryonithMarketSignals`,
`CryonithPerformance`) and a reachability flag. -/
structure Store where
  tradeLogs : List Item
  strategyMetrics : List Item
  marketSignals : List Item
  performance : List Item
  available : Bool

/-- `strategy_metrics_table.query(KeyConditionExpression =
Key("StrategyId").eq(strategy_id) & Key("Timestamp").between(lo, hi))`:
raises when the store is unreachable, otherwise returns the matching
items ordered by sort key ascending. -/
def queryStrategyMetrics (s : Store) (sid lo hi : String) : Except StoreErr (List Item) :=
  if s.available then
    .ok (sortByKey "Timestamp" (s.strategyMetrics.filter
      (fun it => attrEqStr "StrategyId" sid it && attrBetween "Timestamp" lo hi it)))
  else .error .unavailable

/-- `trade_logs_table.scan(FilterExpression = Attr("timestamp").gte(cutoff))`. -/
def scanTradeLogs (s : Store) (cutoff : String) : Except StoreErr (List Item) :=
  if s.available then .ok (s.tradeLogs.filter (attrGe "timestamp" cutoff))
  else .error .unavailable

/-- `UrsusDataLogger.get_strategy_performance`: the whole body runs
inside `try/except`, returning `[]` on any exception; `lo` and `hi` are
the ISO strings of `now - timedelta(days=days)` and `now`. -/
def get_strategy_performance (s : Store) (sid lo hi : String) : List Item :=
  match queryStrategyMetrics s sid lo hi with
  | .ok items => items
  | .error _ => []

/-- `UrsusDataLogger.get_recent_trades`: `try/except` returning `[]` on
any exception; `cutoff` is the ISO string of `now - timedelta(hours=hours)`. -/
def get_recent_trades (s : Store) (cutoff : String) : List Item :=
  match scanTradeLogs s cutoff with
  | .ok items => items
  | .error _ => []

/-- Python-level constructor errors. -/
inductive PyErr where
  | typeError
  | validationError
deriving DecidableEq, Repr

/-- Fields of `@dataclass TradeLog` without a default (required keyword
arguments of the generated `__init__`), in declaration order. -/
def tradeLogRequired : List String :=
  ["trade_id", "timestamp", "strategy", "symbol", "action", "quantity",
   "price", "confidence", "market_signal", "execution_time_ms"]

/-- Fields of `TradeLog` with default `None`. -/
def tradeLogOptional : List String := ["profit_loss", "portfolio_value"]

/-- Fields of `@dataclass StrategyMetric` (all required). -/
def strategyMetricRequired : List String :=
  ["strategy_id", "timestamp", "win_rate", "total_trades", "profit_loss",
   "sharpe_ratio", "max_drawdown", "current_positions", "avg_hold_time"]

/-- Fields of `StrategyMetric` with default `None`. -/
def strategyMetricOptional : List String := []

/-- Fields of `@dataclass MarketSignal` without a default. -/
def marketSignalRequired : List String :=
  ["signal_id", "timestamp", "symbol", "signal_type", "strength", "indicators"]

/-- Fields of `MarketSignal` with default `None`. -/
def marketSignalOptional : List String := ["news_sentiment", "volume_analysis"]

/-- The generated `__init__` of a plain `@dataclass` called with keyword
arguments: raises `TypeError` when an argument name is not a field, or a
field without default is missing; it performs no validation of the
values themselves; the instance holds the fields in declaration order
with optional fields defaulting to `None` (and `asdict` returns exactly
this mapping).  No side effects. -/
def dataclassInit (required optional : List String) (args : Item) : Except PyErr Item :=
  if !(args.all (fun kv => (required ++ optional).contains kv.1)) then
    .error .typeError
  else if !(required.all (fun f => (args.lookup f).isSome)) then
    .error .typeError
  else
    .ok ((required ++ optional).map (fun f => (f, (args.lookup f).getD .none)))

/-- `TradeLog(**args)`. -/
def mkTradeLog (args : Item) : Except PyErr Item :=
  dataclassInit tradeLogRequired tradeLogOptional args

/-- `StrategyMetric(**args)`. -/
def mkStrategyMetric (args : Item) : Except PyErr Item :=
  dataclassInit strategyMetricRequired strategyMetricOptional args

/-- `MarketSignal(**args)`. -/
def mkMarketSignal (args : Item) : Except PyErr Item :=
  dataclassInit marketSignalRequired marketSignalOptional args

/-- `UrsusDataLogger.log_trade`: `_convert_decimals(asdict(trade))` then
`put_item` into the trade-logs table, returning `True`; the `except`
branch catches any exception (store unreachable, conversion error) and
returns `False` with nothing written.  The argument is the instance
field mapping (what `asdict` returns). -/
def log_trade (s : Store) (trade : Item) : Store × Bool :=
  match convertFields trade with
  | some item =>
    if s.available then ({s with tradeLogs := s.tradeLogs ++ [item]}, true)
    else (s, false)
  | Option.none => (s, false)

/-- `UrsusDataLogger.log_strategy_metrics`: same shape as `log_trade`,
into the strategy-metrics table. -/
def log_strategy_metrics (s : Store) (metrics : Item) : Store × Bool :=
  match convertFields metrics with
  | some item =>
    if s.available then ({s with strategyMetrics := s.strategyMetrics ++ [item]}, true)
    else (s, false)
  | Option.none => (s, false)

/-- `UrsusDataLogger.log_market_signal`: same shape, into the
market-signals table. -/
def log_market_signal (s : Store) (signal : Item) : Store × Bool :=
  match convertFields signal with
  | some item =>
    if s.available then ({s with marketSignals := s.marketSignals ++ [item]}, true)
    else (s, false)
  | Option.none => (s, false)

/-- Python dict insertion (the semantics of each `key: value` or `**m`
entry of a dict literal): replace the value in place when the key
already exists, append the pair otherwise. -/
def dictInsert (k : String) (v : Value) : Item → Item
  | [] => [(k, v)]
  | kv :: rest => if kv.1 == k then (k, v) :: rest else kv :: dictInsert k v rest

/-- The item built by `log_daily_performance`:
`{"MetricType": "DAILY_PERFORMANCE", "Date": date, **converted_metrics,
"Timestamp": now_iso}` — entries are inserted left to right, so a later
entry overwrites an earlier one with the same key. -/
def dailyPerfItem (date : String) (metricsConv : Item) (ts : String) : Item :=
  dictInsert "Timestamp" (.str ts)
    (metricsConv.foldl (fun d kv => dictInsert kv.1 kv.2 d)
      [("MetricType", .str "DAILY_PERFORMANCE"), ("Date", .str date)])

/-- `UrsusDataLogger.log_daily_performance`: builds the item above from
the converted metrics (`ts` is the write-time UTC timestamp) and
`put_item`s it into the performance table; `except` returns `False`. -/
def log_daily_performance (s : Store) (date : String) (metrics : Item) (ts : String) :
    Store × Bool :=
  match convertFields metrics with
  | some mc =>
    if s.available then
      ({s with performance := s.performance ++ [dailyPerfItem date mc ts]}, true)
    else (s, false)
  | Option.none => (s, false)

/-- Chunking worker, structurally recursive on a fuel bound (any fuel
of at least the list length yields the `range(0, len, 25)` slicing). -/
def chunksGo : ℕ → List Item → List (List Item)
  | 0, _ => []
  | _ + 1, [] => []
  | n + 1, x :: xs => ((x :: xs).take 25) :: chunksGo n ((x :: xs).drop 25)

/-- `range(0, len(trades), 25)` slicing: successive chunks of at most
25, in order. -/
def chunks25 (l : List Item) : List (List Item) := chunksGo l.length l

/-- Result of `batch_log_trades`: final store, the returned
`success_count`, and how many batch-put calls (one `batch_writer`
context per chunk) were issued. -/
structure BatchOutcome where
  store : Store
  successCount : ℕ
  batchCalls : ℕ

/-- `UrsusDataLogger.batch_log_trades`: chunks of 25; inside one
`batch_writer` context per chunk each converted trade is `put_item`-ed
and `success_count` incremented right after.  The chunk's single
`BatchWriteItem` flush happens inside the 25th `put_item` for a full
chunk (boto3 flushes when the buffer reaches 25) and at context exit for
a shorter chunk; when the store raises, a full chunk has therefore
already counted 24 puts and a short chunk all of them, and none of the
chunk's items is persisted; the `except` catches the exception per chunk
and the loop continues with the next chunk. -/
def batchStep (acc : BatchOutcome) (b : List Item) : BatchOutcome :=
  if acc.store.available then
    { store := {acc.store with
        tradeLogs := acc.store.tradeLogs ++ b.map (fun t => (convertFields t).getD [])},
      successCount := acc.successCount + b.length,
      batchCalls := acc.batchCalls + 1 }
  else
    { store := acc.store,
      successCount := acc.successCount +
        (if b.length == 25 then b.length - 1 else b.length),
      batchCalls := acc.batchCalls + 1 }

def batch_log_trades (s : Store) (trades : List Item) : BatchOutcome :=
  (chunks25 trades).foldl batchStep ⟨s, 0, 0⟩

/-- In-process state of an `UrsusDataLogger` instance: the store handle,
the `data_queue` contents, the configuration constants and the `running`
flag of the background thread. -/
structure LoggerState where
  store : Store
  dataQueue : List Value
  batchSize : ℕ
  flushInterval : ℕ
  running : Bool

/-- `UrsusDataLogger.__init__`: empty `data_queue`, `batch_size = 25`,
`flush_interval = 30`, background processor started with
`running = True`. -/
def initLogger (st : Store) : LoggerState :=
  { store := st, dataQueue := [], batchSize := 25, flushInterval := 30, running := true }

/-- One iteration of the `_batch_processor` loop body:
`time.sleep(self.flush_interval)` followed by `pass` — it touches
neither the queue nor the store and issues no store call. -/
def batchProcessorIter (s : LoggerState) : LoggerState := s

/-- The caller-facing operations of `UrsusDataLogger`. -/
inductive LogOp where
  | logTrade (trade : Item)
  | logStrategyMetrics (metrics : Item)
  | logMarketSignal (signal : Item)
  | logDailyPerformance (date : String) (metrics : Item) (ts : String)
  | batchLogTrades (trades : List Item)
  | getStrategyPerformance (sid lo hi : String)
  | getRecentTrades (cutoff : String)
  | shutdown

/-- State effect of one caller-facing call: every `log_*` call goes
directly to the store via `put_item` / `batch_writer`, the read
accessors only query, and `shutdown` clears `running`; none of them
touches `data_queue`. -/
def applyOp (s : LoggerState) : LogOp → LoggerState
  | .logTrade t => {s with store := (log_trade s.store t).1}
  | .logStrategyMetrics m => {s with store := (log_strategy_metrics s.store m).1}
  | .logMarketSignal sg => {s with store := (log_market_signal s.store sg).1}
  | .logDailyPerformance date ms ts =>
    {s with store := (log_daily_performance s.store date ms ts).1}
  | .batchLogTrades ts => {s with store := (batch_log_trades s.store ts).store}
  | .getStrategyPerformance _ _ _ => s
  | .getRecentTrades _ => s
  | .shutdown => {s with running := false}

/-- C8: the background worker `_batch_processor` is a functional no-op:
every iteration (and hence any number of iterations) of its loop body
only sleeps and leaves the whole logger state — `data_queue` and all
store tables — unchanged, draining and flushing nothing. -/
theorem C8_batch_processor_noop :
    (∀ s : LoggerState, batchProcessorIter s = s)
  ∧ (∀ (n : ℕ) (s : LoggerState), batchProcessorIter^[n] s = s)
  ∧ (∀ (n : ℕ) (s : LoggerState),
      (batchProcessorIter^[n] s).dataQueue = s.dataQueue
      ∧ (batchProcessorIter^[n] s).store = s.store) := by
  have hiter : ∀ (n : ℕ) (s : LoggerState), batchProcessorIter^[n] s = s := by
    intro n
    induction n with
    | zero => intro s; rfl
    | succ k ih =>
      intro s
      rw [Function.iterate_succ_apply]
      exact ih s
  exact ⟨fun s => rfl, hiter, fun n s => by rw [hiter]; exact ⟨rfl, rfl⟩⟩

/-- C9: no caller-facing operation ever enqueues into `data_queue`:
after an arbitrary sequence of `log_trade`, `log_strategy_metrics`,
`log_market_signal`, `log_daily_performance`, `batch_log_trades`, read
accessor and `shutdown` calls, the queue holds exactly what it held
before — in particular it stays empty from construction on, every
`log_*` call writing directly to the store. -/
theorem C9_queue_never_enqueued :
    (∀ (ops : List LogOp) (s : LoggerState),
      (ops.foldl applyOp s).dataQueue = s.dataQueue)
  ∧ (∀ (ops : List LogOp) (st : Store),
      (ops.foldl applyOp (initLogger st)).dataQueue = []) := by
  have hop : ∀ (s : LoggerState) (op : LogOp),
      (applyOp s op).dataQueue = s.dataQueue := by
    intro s op
    cases op <;> rfl
  have hfold : ∀ (ops : List LogOp) (s : LoggerState),
      (ops.foldl applyOp s).dataQueue = s.dataQueue := by
    intro ops
    induction ops with
    | nil => intro s; rfl
    | cons op rest ih =>
      intro s
      rw [List.foldl_cons, ih, hop]
  exact ⟨hfold, fun ops st => by rw [hfold]; rfl⟩

/-- A store that cannot be reached. -/
def offlineStore : Store := ⟨[], [], [], [], false⟩

/-- An empty, reachable store. -/
def emptyStore : Store := ⟨[], [], [], [], true⟩

/-- C3 counterexample: with the store unreachable, the underlying query
and scan raise `StoreUnavailableError`, but both accessors catch it and
return `[]` — a value — instead of propagating the error as the claim
requires. -/
theorem C3_counterexample :
    offlineStore.available = false
  ∧ queryStrategyMetrics offlineStore "s1" "2025-01-01" "2025-01-08" = .error .unavailable
  ∧ get_strategy_performance offlineStore "s1" "2025-01-01" "2025-01-08" = []
  ∧ scanTradeLogs offlineStore "2025-01-01" = .error .unavailable
  ∧ get_recent_trades offlineStore "2025-01-01" = [] :=
  ⟨rfl, rfl, rfl, rfl, rfl⟩

/-- C3 amended: when the store is reachable and no record matches, both
accessors return the empty sequence; when the store cannot be reached
they ALSO return the empty sequence (the `except` swallows the
unavailability error), never propagating an error to the caller. -/
theorem C3_amended_error_swallowed (s : Store) (sid lo hi cutoff : String) :
    (s.available = false →
      get_strategy_performance s sid lo hi = [] ∧ get_recent_trades s cutoff = [])
  ∧ (s.available = true →
      (s.strategyMetrics.filter
          (fun it => attrEqStr "StrategyId" sid it && attrBetween "Timestamp" lo hi it) = [] →
        get_strategy_performance s sid lo hi = [])
      ∧ (s.tradeLogs.filter (attrGe "timestamp" cutoff) = [] →
        get_recent_trades s cutoff = [])) := by
  constructor
  · intro h
    unfold get_strategy_performance get_recent_trades queryStrategyMetrics scanTradeLogs
    rw [h]
    exact ⟨rfl, rfl⟩
  · intro h
    constructor
    · intro hf
      unfold get_strategy_performance queryStrategyMetrics
      rw [h, hf]
      rfl
    · intro hf
      unfold get_recent_trades scanTradeLogs
      rw [h, hf]
      rfl

/-- Witness for C3 (amended): concrete applications on an unreachable
store and on an empty reachable store. -/
theorem C3_witness :
    (get_strategy_performance offlineStore "s1" "a" "b" = []
      ∧ get_recent_trades offlineStore "a" = [])
  ∧ get_strategy_performance emptyStore "s1" "a" "b" = [] :=
  ⟨(C3_amended_error_swallowed offlineStore "s1" "a" "b" "a").1 rfl,
    ((C3_amended_error_swallowed emptyStore "s1" "a" "b" "a").2 rfl).1 rfl⟩

/-- `dataclassInit` succeeds exactly when every required field is
supplied (given that no unknown keyword is passed); the values
themselves are never inspected. -/
theorem dataclassInit_ok_iff (required optional : List String) (args : Item)
    (h : args.all (fun kv => (required ++ optional).contains kv.1) = true) :
    (dataclassInit required optional args).isOk = true ↔
      required.all (fun f => (args.lookup f).isSome) = true := by
  unfold dataclassInit
  rw [h]
  cases hreq : required.all (fun f => (args.lookup f).isSome) with
  | true => simp [Except.isOk, Except.toBool]
  | false => simp [Except.isOk, Except.toBool]

/-- `dataclassInit` can only raise `TypeError`, never `ValidationError`. -/
theorem dataclassInit_no_validation (required optional : List String) (args : Item) :
    dataclassInit required optional args ≠ .error .validationError := by
  unfold dataclassInit
  split
  · simp
  · split
    · simp
    · simp

/-- Keyword arguments for a `MarketSignal` whose `signal_type` is
outside the documented set and whose `strength` is outside `[0,1]`. -/
def badSignalArgs : Item :=
  [("signal_id", .str "sig-1"), ("timestamp", .str "2025-01-01T00:00:00+00:00"),
   ("symbol", .str "TSLA"), ("signal_type", .str "HOLD"),
   ("strength", .float ⟨"2.0"⟩), ("indicators", .dict [])]

/-- C2 counterexample: `MarketSignal(signal_type="HOLD", strength=2.0, ...)`
— `"HOLD"` is outside `{BUY, SELL, NEUTRAL}` and the numeric value of
`strength` is `2 > 1` — yet construction succeeds: the dataclasses carry
no validator, so no `ValidationError` is raised. -/
theorem C2_counterexample :
    ["BUY", "SELL", "NEUTRAL"].contains "HOLD" = false
  ∧ pyDecimalOfString "2.0" = some (.fin (mkRat 2 1))
  ∧ ¬(mkRat 2 1 ≤ 1)
  ∧ (mkMarketSignal badSignalArgs).isOk = true
  ∧ mkMarketSignal badSignalArgs =
      .ok (badSignalArgs ++ [("news_sentiment", .none), ("volume_analysis", .none)]) :=
  ⟨by decide, by decide, by decide, rfl, rfl⟩

/-- C2 amended: constructing a `TradeLog`, `StrategyMetric` or
`MarketSignal` (with recognised keyword names) fails — with `TypeError`,
not `ValidationError` — exactly when a required field is missing; the
enumerated `action`/`signal_type` sets and the `[0,1]` bounds are not
checked, any value being accepted; construction never raises
`ValidationError` and has no side effects (it is a pure function of its
arguments). -/
theorem C2_amended_no_validation (args : Item) :
    (args.all (fun kv => (tradeLogRequired ++ tradeLogOptional).contains kv.1) = true →
      ((mkTradeLog args).isOk = true ↔
        tradeLogRequired.all (fun f => (args.lookup f).isSome) = true))
  ∧ (args.all (fun kv =>
        (strategyMetricRequired ++ strategyMetricOptional).contains kv.1) = true →
      ((mkStrategyMetric args).isOk = true ↔
        strategyMetricRequired.all (fun f => (args.lookup f).isSome) = true))
  ∧ (args.all (fun kv => (marketSignalRequired ++ marketSignalOptional).contains kv.1) = true →
      ((mkMarketSignal args).isOk = true ↔
        marketSignalRequired.all (fun f => (args.lookup f).isSome) = true))
  ∧ mkTradeLog args ≠ .error .validationError
  ∧ mkStrategyMetric args ≠ .error .validationError
  ∧ mkMarketSignal args ≠ .error .validationError :=
  ⟨fun h => dataclassInit_ok_iff _ _ _ h,
   fun h => dataclassInit_ok_iff _ _ _ h,
   fun h => dataclassInit_ok_iff _ _ _ h,
   dataclassInit_no_validation _ _ _,
   dataclassInit_no_validation _ _ _,
   dataclassInit_no_validation _ _ _⟩

/-- Witness for C2 (amended): on `badSignalArgs` every required field is
present, so construction succeeds, out-of-range values notwithstanding;
dropping `signal_id` makes it fail. -/
theorem C2_witness :
    ((mkMarketSignal badSignalArgs).isOk = true ↔
      marketSignalRequired.all (fun f => (badSignalArgs.lookup f).isSome) = true)
  ∧ ((mkMarketSignal (badSignalArgs.drop 1)).isOk = true ↔
      marketSignalRequired.all (fun f => ((badSignalArgs.drop 1).lookup f).isSome) = true) :=
  ⟨((C2_amended_no_validation badSignalArgs).2.2.1 (by decide)),
   ((C2_amended_no_validation (badSignalArgs.drop 1)).2.2.1 (by decide))⟩

/-- Two `Forall₂`-related field lists whose relation preserves the first
component have equal key lists. -/
theorem forall2_fst_eq {R : (String × Value) → (String × Value) → Prop}
    (hR : ∀ a b, R a b → a.1 = b.1) :
    ∀ {fs fs' : Item}, List.Forall₂ R fs fs' → fs'.map Prod.fst = fs.map Prod.fst := by
  intro fs fs' h
  induction h with
  | nil => rfl
  | cons h1 _ ih => rw [List.map_cons, List.map_cons, ih, hR _ _ h1]

/-- `_convert_decimals` preserves the keys of a dict. -/
theorem convertFields_keys {fs fs' : Item} (h : convertFields fs = some fs') :
    fs'.map Prod.fst = fs.map Prod.fst :=
  forall2_fst_eq (fun _ _ hab => hab.1) (convertFields_forall2 h)

/-- `List.lookup` misses every key that no pair of the list carries. -/
theorem lookup_none_of_not_mem_keys {k : String} :
    ∀ {fs : Item}, (∀ kv ∈ fs, kv.1 ≠ k) → fs.lookup k = Option.none := by
  intro fs
  induction fs with
  | nil => intro _; rfl
  | cons kv rest ih =>
    intro h
    rw [List.lookup_cons]
    have hne : (k == kv.1) = false := by
      have := h kv (List.mem_cons_self kv rest)
      simp only [beq_eq_false_iff_ne, ne_eq]
      intro he
      exact this he.symm
    rw [hne]
    exact ih (fun kv2 h2 => h kv2 (List.mem_cons_of_mem kv h2))

/-- What `log_strategy_metrics` writes for a given instance field
mapping (the converted dict; `[]` unreachable for actual metrics). -/
def storedMetricItem (metrics : Item) : Item := (convertFields metrics).getD []

/-- The field mapping of a concrete `StrategyMetric` instance (cf. the
simulation in the source). -/
def sampleMetricArgs : Item :=
  [("strategy_id", .str "s1"), ("timestamp", .str "2025-06-15T12:00:00+00:00"),
   ("win_rate", .float ⟨"0.68"⟩), ("total_trades", .int 45),
   ("profit_loss", .float ⟨"2750.5"⟩), ("sharpe_ratio", .float ⟨"1.85"⟩),
   ("max_drawdown", .float ⟨"0.12"⟩), ("current_positions", .int 3),
   ("avg_hold_time", .float ⟨"4.5"⟩)]

/-- The store after logging `sampleMetricArgs` into an empty reachable
store. -/
def storeWithMetric : Store := (log_strategy_metrics emptyStore sampleMetricArgs).1

/-- C7 (code bug): `log_strategy_metrics` stores items under the
dataclass keys `strategy_id` / `timestamp`, but the query of
`get_strategy_performance` conditions on `StrategyId` / `Timestamp`,
attributes no logged item has — so a logged metric for the requested
strategy whose timestamp lies inside the inclusive window is never
returned: concretely, after logging a metric for strategy `s1` with
timestamp `2025-06-15T12:00:00+00:00`, a query for `s1` over the window
`[2025-06-10, 2025-06-20]` returns `[]` instead of that record. -/
theorem C7_key_mismatch :
    (∀ metrics : Item,
      metrics.all (fun kv => strategyMetricRequired.contains kv.1) = true →
      attrStr "StrategyId" (storedMetricItem metrics) = Option.none)
  ∧ storeWithMetric.available = true
  ∧ storeWithMetric.strategyMetrics = [storedMetricItem sampleMetricArgs]
  ∧ attrStr "strategy_id" (storedMetricItem sampleMetricArgs) = some "s1"
  ∧ attrStr "timestamp" (storedMetricItem sampleMetricArgs)
      = some "2025-06-15T12:00:00+00:00"
  ∧ strLe "2025-06-10T00:00:00+00:00" "2025-06-15T12:00:00+00:00" = true
  ∧ strLe "2025-06-15T12:00:00+00:00" "2025-06-20T00:00:00+00:00" = true
  ∧ get_strategy_performance storeWithMetric "s1"
      "2025-06-10T00:00:00+00:00" "2025-06-20T00:00:00+00:00" = [] := by
  refine ⟨?_, rfl, rfl, rfl, rfl, by decide, by decide, rfl⟩
  intro metrics hkeys
  unfold storedMetricItem
  cases hc : convertFields metrics with
  | none => rfl
  | some fs' =>
    have hk := convertFields_keys hc
    unfold attrStr
    rw [lookup_none_of_not_mem_keys]
    intro kv hkv
    intro heq
    have h1 : kv.1 ∈ fs'.map Prod.fst := List.mem_map_of_mem Prod.fst hkv
    rw [hk] at h1
    obtain ⟨kv0, hkv0, hfst⟩ := List.mem_map.mp h1
    have h2 := (List.all_eq_true.mp hkeys) kv0 hkv0
    have h3 : kv0.1 ∈ strategyMetricRequired := by simpa using h2
    rw [hfst, heq] at h3
    have : ("StrategyId" : String) ∉ strategyMetricRequired := by decide
    exact this h3

/-- With enough fuel, `chunksGo` produces `ceil(n/25) = (n + 24) / 25`
chunks. -/
theorem chunksGo_length : ∀ (n : ℕ) (l : List Item), l.length ≤ n →
    (chunksGo n l).length = (l.length + 24) / 25 := by
  intro n
  induction n with
  | zero =>
    intro l h
    have he : l = [] := List.eq_nil_of_length_eq_zero (Nat.le_zero.mp h)
    subst he
    rfl
  | succ k ih =>
    intro l h
    cases l with
    | nil => rfl
    | cons x xs =>
      rw [chunksGo, List.length_cons]
      have hd : ((x :: xs).drop 25).length ≤ k := by
        rw [List.length_drop, List.length_cons]
        rw [List.length_cons] at h
        omega
      rw [ih _ hd]
      rw [List.length_drop, List.length_cons]
      omega

/-- With enough fuel, every chunk holds at most 25 items. -/
theorem chunksGo_le25 : ∀ (n : ℕ) (l : List Item), l.length ≤ n →
    ∀ b ∈ chunksGo n l, b.length ≤ 25 := by
  intro n
  induction n with
  | zero =>
    intro l h b hb
    exact absurd hb (List.not_mem_nil b)
  | succ k ih =>
    intro l h
    cases l with
    | nil => intro b hb; exact absurd hb (List.not_mem_nil b)
    | cons x xs =>
      rw [chunksGo]
      intro b hb
      cases hb with
      | head =>
        rw [List.length_take]
        omega
      | tail _ hb2 =>
        have hd : ((x :: xs).drop 25).length ≤ k := by
          rw [List.length_drop, List.length_cons]
          rw [List.length_cons] at h
          omega
        exact ih _ hd b hb2

/-- With enough fuel, the chunks partition the input: their lengths sum
back to the input length. -/
theorem chunksGo_sum : ∀ (n : ℕ) (l : List Item), l.length ≤ n →
    ((chunksGo n l).map List.length).sum = l.length := by
  intro n
  induction n with
  | zero =>
    intro l h
    have he : l = [] := List.eq_nil_of_length_eq_zero (Nat.le_zero.mp h)
    subst he
    rfl
  | succ k ih =>
    intro l h
    cases l with
    | nil => rfl
    | cons x xs =>
      rw [chunksGo, List.map_cons, List.sum_cons]
      have hd : ((x :: xs).drop 25).length ≤ k := by
        rw [List.length_drop, List.length_cons]
        rw [List.length_cons] at h
        omega
      rw [ih _ hd]
      rw [List.length_take, List.length_drop]
      rw [List.length_cons] at h ⊢
      omega

/-- Each batch-writer context increments the call count by one. -/
theorem batchStep_calls (acc : BatchOutcome) (b : List Item) :
    (batchStep acc b).batchCalls = acc.batchCalls + 1 := by
  unfold batchStep
  split <;> rfl

/-- On a reachable store, one batch counts and persists all its items
and the store stays reachable. -/
theorem batchStep_available (acc : BatchOutcome) (b : List Item)
    (h : acc.store.available = true) :
    (batchStep acc b).successCount = acc.successCount + b.length
    ∧ (batchStep acc b).store.available = true
    ∧ (batchStep acc b).store.tradeLogs.length
        = acc.store.tradeLogs.length + b.length := by
  unfold batchStep
  rw [if_pos h]
  exact ⟨rfl, h, by simp⟩

/-- Folding `batchStep` counts one call per chunk. -/
theorem batch_fold_calls : ∀ (bs : List (List Item)) (acc : BatchOutcome),
    (bs.foldl batchStep acc).batchCalls = acc.batchCalls + bs.length := by
  intro bs
  induction bs with
  | nil => intro acc; rfl
  | cons b rest ih =>
    intro acc
    rw [List.foldl_cons, ih, batchStep_calls, List.length_cons]
    omega

/-- Folding `batchStep` over a reachable store counts and persists
every item of every chunk. -/
theorem batch_fold_available : ∀ (bs : List (List Item)) (acc : BatchOutcome),
    acc.store.available = true →
    (bs.foldl batchStep acc).successCount
        = acc.successCount + (bs.map List.length).sum
    ∧ (bs.foldl batchStep acc).store.tradeLogs.length
        = acc.store.tradeLogs.length + (bs.map List.length).sum := by
  intro bs
  induction bs with
  | nil => intro acc _; exact ⟨rfl, rfl⟩
  | cons b rest ih =>
    intro acc h
    obtain ⟨h1, h2, h3⟩ := batchStep_available acc b h
    obtain ⟨ih1, ih2⟩ := ih (batchStep acc b) h2
    rw [List.foldl_cons]
    constructor
    · rw [ih1, h1, List.map_cons, List.sum_cons]
      omega
    · rw [ih2, h3, List.map_cons, List.sum_cons]
      omega

/-- C4 amended: `batch_log_trades` on `n` trades issues exactly
`ceil(n/25) = (n + 24) / 25` batch-put calls, each holding at most 25
items; when every batch-put succeeds (the store is reachable), the
returned integer equals `n` and all `n` trades are persisted.  When a
batch-put fails, the count can instead exceed the number of persisted
trades — see the counterexample — because `success_count` is
incremented per `put_item` call, before the batch flush outcome is
known. -/
theorem C4_amended_batching (s : Store) (trades : List Item) :
    (batch_log_trades s trades).batchCalls = (trades.length + 24) / 25
  ∧ (∀ b ∈ chunks25 trades, b.length ≤ 25)
  ∧ (s.available = true →
      (batch_log_trades s trades).successCount = trades.length
      ∧ (batch_log_trades s trades).store.tradeLogs.length
          = s.tradeLogs.length + trades.length) := by
  refine ⟨?_, chunksGo_le25 trades.length trades (Nat.le_refl _), ?_⟩
  · unfold batch_log_trades
    rw [batch_fold_calls]
    unfold chunks25
    rw [chunksGo_length trades.length trades (Nat.le_refl _)]
    simp
  · intro h
    unfold batch_log_trades
    obtain ⟨h1, h2⟩ := batch_fold_available (chunks25 trades) ⟨s, 0, 0⟩ h
    unfold chunks25 at h1 h2
    rw [chunksGo_sum trades.length trades (Nat.le_refl _)] at h1 h2
    constructor
    · simpa using h1
    · simpa using h2

/-- The field mapping of a concrete `TradeLog` instance (the simulated
trade of the source). -/
def sampleTradeArgs : Item :=
  [("trade_id", .str "T1"), ("timestamp", .str "2025-06-15T12:00:00+00:00"),
   ("strategy", .str "ursus_momentum_v1"), ("symbol", .str "TSLA"),
   ("action", .str "BUY"), ("quantity", .float ⟨"100.0"⟩),
   ("price", .float ⟨"245.5"⟩), ("confidence", .float ⟨"0.85"⟩),
   ("market_signal", .str "BULLISH_MOMENTUM"),
   ("execution_time_ms", .float ⟨"150.5"⟩),
   ("profit_loss", .none), ("portfolio_value", .none)]

/-- Witness for C4 (amended) on one concrete trade against a reachable
store: one batch call, count 1, one item persisted. -/
theorem C4_witness :
    (batch_log_trades emptyStore [sampleTradeArgs]).batchCalls = (1 + 24) / 25
  ∧ ((batch_log_trades emptyStore [sampleTradeArgs]).successCount = 1
      ∧ (batch_log_trades emptyStore [sampleTradeArgs]).store.tradeLogs.length = 0 + 1) :=
  ⟨(C4_amended_batching emptyStore [sampleTradeArgs]).1,
   (C4_amended_batching emptyStore [sampleTradeArgs]).2.2 rfl⟩

/-- C4 counterexample: one trade against an unreachable store — the
single batch-put fails, so zero trades are persisted (all rejected),
yet the function returns `success_count = 1`: the sum of per-batch
successes does not equal the number of non-rejected input trades. -/
theorem C4_counterexample :
    (batch_log_trades offlineStore [sampleTradeArgs]).successCount = 1
  ∧ (batch_log_trades offlineStore [sampleTradeArgs]).store.tradeLogs.length = 0
  ∧ (1 : ℕ) ≠ 0 :=
  ⟨rfl, rfl, by decide⟩

/-- Looking up the key just inserted finds the new value. -/
theorem lookup_dictInsert_self (k : String) (v : Value) :
    ∀ d : Item, (dictInsert k v d).lookup k = some v := by
  intro d
  induction d with
  | nil =>
    rw [dictInsert, List.lookup_cons]
    simp
  | cons kv rest ih =>
    rw [dictInsert]
    split
    · rw [List.lookup_cons]
      simp
    · next hk =>
      rw [List.lookup_cons]
      have hne : (k == kv.1) = false := by
        simp only [beq_eq_false_iff_ne, ne_eq]
        intro he
        exact hk (by simp [he])
      rw [hne]
      exact ih

/-- Inserting one key leaves every other key's lookup unchanged. -/
theorem lookup_dictInsert_ne (k k2 : String) (v : Value) (h : k2 ≠ k) :
    ∀ d : Item, (dictInsert k v d).lookup k2 = d.lookup k2 := by
  intro d
  have hne : (k2 == k) = false := by
    simp only [beq_eq_false_iff_ne, ne_eq]
    exact h
  induction d with
  | nil =>
    rw [dictInsert, List.lookup_cons, hne]
  | cons kv rest ih =>
    rw [dictInsert]
    split
    · next hk =>
      have hkk : kv.1 = k := by simpa using hk
      rw [List.lookup_cons, List.lookup_cons, hkk, hne]
    · rw [List.lookup_cons, List.lookup_cons]
      cases hc : k2 == kv.1 with
      | true => rfl
      | false => exact ih

/-- Folding Python dict inserts whose keys all differ from `k` leaves
the lookup of `k` unchanged. -/
theorem lookup_foldl_insert_not_mem (k : String) :
    ∀ (ms d : Item), (∀ kv ∈ ms, kv.1 ≠ k) →
    (ms.foldl (fun d2 kv => dictInsert kv.1 kv.2 d2) d).lookup k = d.lookup k := by
  intro ms
  induction ms with
  | nil => intro d _; rfl
  | cons kv rest ih =>
    intro d h
    rw [List.foldl_cons]
    rw [ih _ (fun kv2 h2 => h kv2 (List.mem_cons_of_mem kv h2))]
    exact lookup_dictInsert_ne kv.1 k kv.2
      (fun he => h kv (List.mem_cons_self kv rest) he.symm) d

/-- With unique keys, folding the inserts of `ms` makes the lookup of a
key of `ms` find its `ms` value. -/
theorem lookup_foldl_insert_mem (k : String) (v : Value) :
    ∀ (ms d : Item), ms.lookup k = some v → (ms.map Prod.fst).Nodup →
    (ms.foldl (fun d2 kv => dictInsert kv.1 kv.2 d2) d).lookup k = some v := by
  intro ms
  induction ms with
  | nil => intro d h _; cases h
  | cons kv rest ih =>
    intro d h hnd
    rw [List.lookup_cons] at h
    rw [List.foldl_cons]
    rw [List.map_cons, List.nodup_cons] at hnd
    cases hk : k == kv.1 with
    | true =>
      rw [hk] at h
      have hkv : kv.2 = v := by simpa using h
      have hkeq : k = kv.1 := by simpa using hk
      have hrest : ∀ kv2 ∈ rest, kv2.1 ≠ k := by
        intro kv2 h2 he
        have hm : kv2.1 ∈ rest.map Prod.fst := List.mem_map_of_mem Prod.fst h2
        rw [he, hkeq] at hm
        exact hnd.1 hm
      rw [lookup_foldl_insert_not_mem k rest _ hrest]
      rw [← hkeq, ← hkv] at *
      exact lookup_dictInsert_self k kv.2 d
    | false =>
      rw [hk] at h
      exact ih _ h hnd.2

/-- A successful lookup exhibits a member pair. -/
theorem lookup_some_mem {k : String} {v : Value} :
    ∀ {ms : Item}, ms.lookup k = some v → (k, v) ∈ ms := by
  intro ms
  induction ms with
  | nil => intro h; cases h
  | cons kv rest ih =>
    intro h
    rw [List.lookup_cons] at h
    cases hk : k == kv.1 with
    | true =>
      rw [hk] at h
      have hkv : kv.2 = v := by simpa using h
      have hkeq : k = kv.1 := by simpa using hk
      have hp : (k, v) = kv := by
        rw [hkeq, ← hkv]
      rw [hp]
      exact List.mem_cons_self kv rest
    | false =>
      rw [hk] at h
      exact List.mem_cons_of_mem kv (ih h)

/-- `_convert_decimals` on a dict computes lookups pointwise. -/
theorem convertFields_lookup : ∀ {fs fs' : Item}, convertFields fs = some fs' →
    ∀ k, fs'.lookup k = (fs.lookup k).bind convertDecimals := by
  intro fs
  induction fs with
  | nil =>
    intro fs' h k
    simp only [convertFields, Option.some.injEq] at h
    subst h
    rfl
  | cons kv rest ih =>
    intro fs' h k
    rw [convertFields] at h
    cases hv : convertDecimals kv.2 with
    | none => rw [hv] at h; exact absurd h (by simp)
    | some v =>
      rw [hv] at h
      cases hr : convertFields rest with
      | none => rw [hr] at h; exact absurd h (by simp)
      | some rest2 =>
        rw [hr] at h
        simp only [Option.some.injEq] at h
        subst h
        rw [List.lookup_cons, List.lookup_cons]
        cases hk : k == kv.1 with
        | true => simp [hv]
        | false => exact ih hr k

/-- A key present among the keys has a successful lookup. -/
theorem lookup_isSome_of_mem_keys {k : String} :
    ∀ {ms : Item}, k ∈ ms.map Prod.fst → (ms.lookup k).isSome = true := by
  intro ms
  induction ms with
  | nil => intro h; cases h
  | cons kv rest ih =>
    intro h
    rw [List.lookup_cons]
    cases hk : k == kv.1 with
    | true => rfl
    | false =>
      apply ih
      rw [List.map_cons] at h
      cases h with
      | head => simp at hk
      | tail _ h2 => exact h2

/-- C10: in the item built by `log_daily_performance` the caller metric
keys collide with the fixed fields asymmetrically: a metric named
`MetricType` or `Date` overrides the constant tag or the date field
(the `**metrics` unpacking comes after them in the dict literal), while
a metric named `Timestamp` is itself overwritten by the write-time
timestamp inserted last; for metric keys disjoint from the three fixed
names the stored item carries the tag, the date, every converted metric
and the write-time timestamp. -/
theorem C10_daily_perf_collisions (date ts : String) (ms mc : Item)
    (hconv : convertFields ms = some mc) (hnodup : (ms.map Prod.fst).Nodup) :
    (∀ v, mc.lookup "MetricType" = some v →
        (dailyPerfItem date mc ts).lookup "MetricType" = some v)
  ∧ (∀ v, mc.lookup "Date" = some v →
        (dailyPerfItem date mc ts).lookup "Date" = some v)
  ∧ (dailyPerfItem date mc ts).lookup "Timestamp" = some (.str ts)
  ∧ ((∀ kv ∈ ms, kv.1 ≠ "MetricType" ∧ kv.1 ≠ "Date" ∧ kv.1 ≠ "Timestamp") →
      ((dailyPerfItem date mc ts).lookup "MetricType" = some (.str "DAILY_PERFORMANCE")
      ∧ (dailyPerfItem date mc ts).lookup "Date" = some (.str date)
      ∧ (∀ k v, ms.lookup k = some v →
          (dailyPerfItem date mc ts).lookup k = convertDecimals v))) := by
  have hnodup2 : (mc.map Prod.fst).Nodup := by
    rw [convertFields_keys hconv]
    exact hnodup
  refine ⟨?_, ?_, ?_, ?_⟩
  · intro v hv
    unfold dailyPerfItem
    rw [lookup_dictInsert_ne "Timestamp" "MetricType" (.str ts) (by decide)]
    exact lookup_foldl_insert_mem "MetricType" v mc _ hv hnodup2
  · intro v hv
    unfold dailyPerfItem
    rw [lookup_dictInsert_ne "Timestamp" "Date" (.str ts) (by decide)]
    exact lookup_foldl_insert_mem "Date" v mc _ hv hnodup2
  · unfold dailyPerfItem
    exact lookup_dictInsert_self "Timestamp" (.str ts) _
  · intro hdisj
    have hmc : ∀ kv ∈ mc, kv.1 ≠ "MetricType" ∧ kv.1 ≠ "Date" ∧ kv.1 ≠ "Timestamp" := by
      intro kv hkv
      have h1 : kv.1 ∈ mc.map Prod.fst := List.mem_map_of_mem Prod.fst hkv
      rw [convertFields_keys hconv] at h1
      obtain ⟨kv0, hkv0, hfst⟩ := List.mem_map.mp h1
      rw [← hfst]
      exact hdisj kv0 hkv0
    refine ⟨?_, ?_, ?_⟩
    · unfold dailyPerfItem
      rw [lookup_dictInsert_ne "Timestamp" "MetricType" (.str ts) (by decide)]
      rw [lookup_foldl_insert_not_mem "MetricType" mc _ (fun kv h => (hmc kv h).1)]
      rfl
    · unfold dailyPerfItem
      rw [lookup_dictInsert_ne "Timestamp" "Date" (.str ts) (by decide)]
      rw [lookup_foldl_insert_not_mem "Date" mc _ (fun kv h => (hmc kv h).2.1)]
      rfl
    · intro k v hkv
      have hkm : (k, v) ∈ ms := lookup_some_mem hkv
      have hkd := hdisj (k, v) hkm
      have hkeys : k ∈ mc.map Prod.fst := by
        rw [convertFields_keys hconv]
        exact List.mem_map_of_mem Prod.fst hkm
      have hsome := lookup_isSome_of_mem_keys hkeys
      cases hw : mc.lookup k with
      | none => rw [hw] at hsome; exact absurd hsome (by simp)
      | some w =>
        have hcv : mc.lookup k = (ms.lookup k).bind convertDecimals :=
          convertFields_lookup hconv k
        rw [hw, hkv] at hcv
        unfold dailyPerfItem
        rw [lookup_dictInsert_ne "Timestamp" k (.str ts) hkd.2.2]
        rw [lookup_foldl_insert_mem k w mc _ hw hnodup2]
        rw [hcv]
        rfl

/-- Witness for C10: a concrete `log_daily_performance` item for one
metric `total_pnl = 2750.5` carries the tag, the date, the exact
decimal metric and the write-time timestamp. -/
theorem C10_witness :
    (dailyPerfItem "2025-06-15" [("total_pnl", .dec (.fin (mkRat 5501 2)))]
        "2025-06-15T21:00:00+00:00").lookup "Timestamp"
      = some (.str "2025-06-15T21:00:00+00:00")
  ∧ (dailyPerfItem "2025-06-15" [("total_pnl", .dec (.fin (mkRat 5501 2)))]
        "2025-06-15T21:00:00+00:00").lookup "MetricType"
      = some (.str "DAILY_PERFORMANCE")
  ∧ (dailyPerfItem "2025-06-15" [("total_pnl", .dec (.fin (mkRat 5501 2)))]
        "2025-06-15T21:00:00+00:00").lookup "Date" = some (.str "2025-06-15")
  ∧ (dailyPerfItem "2025-06-15" [("total_pnl", .dec (.fin (mkRat 5501 2)))]
        "2025-06-15T21:00:00+00:00").lookup "total_pnl"
      = convertDecimals (.float ⟨"2750.5"⟩) := by
  have H := C10_daily_perf_collisions "2025-06-15" "2025-06-15T21:00:00+00:00"
    [("total_pnl", .float ⟨"2750.5"⟩)] [("total_pnl", .dec (.fin (mkRat 5501 2)))]
    rfl (by decide)
  have hd : ∀ kv ∈ ([("total_pnl", Value.float ⟨"2750.5"⟩)] : Item),
      kv.1 ≠ "MetricType" ∧ kv.1 ≠ "Date" ∧ kv.1 ≠ "Timestamp" := by decide
  exact ⟨H.2.2.1, (H.2.2.2 hd).1, (H.2.2.2 hd).2.1,
    (H.2.2.2 hd).2.2 "total_pnl" (.float ⟨"2750.5"⟩) rfl⟩

/-- Witness for C7: the concrete logged metric instance has no
`StrategyId` attribute in its stored form. -/
theorem C7_witness :
    attrStr "StrategyId" (storedMetricItem sampleMetricArgs) = Option.none :=
  C7_key_mismatch.1 sampleMetricArgs (by decide)
